import Mathlib

set_option autoImplicit false

/-!
Verification of the module installation core (`nf_core/modules/install.py`,
`ModuleInstall.install`) against its natural-language design specification.

The orchestrator `ModuleInstall.install` is embedded stage by stage from the
source. Its collaborators (`ModulesJson`, the remote repository client
`modules_repo`, the interactive prompts, the file materializer) are not part
of the source tree here; they are modelled from the specification's contracts
(Manifest Store, Remote registry client, Interactive prompt collaborator,
File Materializer) and each such definition is marked `Modelled from the
spec:` in its doc comment.

The manifest (`modules.json`) is a nested mapping
remote url → repository path → module name → revision, embedded as nested
association lists with unique keys (Python dict semantics).
-/

abbrev Remote := String

abbrev RepoPath := String

abbrev ModName := String

abbrev Sha := String

/-- File contents of one module directory: relative path → file bytes. -/
abbrev Files := List (String × String)

/-- Innermost manifest mapping: module name → installed revision. -/
abbrev ModMap := List (ModName × Sha)

/-- Repository record: repository path → module mapping (the "modules" level). -/
abbrev DirMap := List (RepoPath × ModMap)

/-- modules.json root mapping: remote url → repository record. -/
abbrev Manifest := List (Remote × DirMap)

/-- The project's module directory tree: (repository path, module name) keys the
directory `modules/<repo_path>/<module>`, holding that module's files. -/
abbrev FsTree := List ((RepoPath × ModName) × Files)

/-- Existence test (os.path.exists) on a module directory. -/
def fsHas (fs : FsTree) (k : RepoPath × ModName) : Bool :=
  fs.any fun e => e.1 == k

/-- Contents of a module directory, when present. -/
def fsGet (fs : FsTree) (k : RepoPath × ModName) : Option Files :=
  (fs.find? fun e => e.1 == k).map (·.2)

/-- Modelled from the spec: purge of an existing module directory
(`ModuleCommand.clear_module_dir`, not under src/): removes the directory and
its contents; no-op when absent. -/
def clear_module_dir (fs : FsTree) (k : RepoPath × ModName) : FsTree :=
  fs.filter fun e => e.1 != k

namespace ModulesJson

def findMod : ModMap → ModName → Option Sha
  | [], _ => none
  | e :: es, n => if e.1 == n then some e.2 else findMod es n

def findDir : DirMap → RepoPath → Option ModMap
  | [], _ => none
  | e :: es, p => if e.1 == p then some e.2 else findDir es p

def findRepo : Manifest → Remote → Option DirMap
  | [], _ => none
  | e :: es, r => if e.1 == r then some e.2 else findRepo es r

/-- Modelled from the spec: `getInstalledRevision(moduleName, remote, repoPath)`
(`ModulesJson.get_module_version`, not under src/): pure lookup through the
three levels of the manifest. -/
def get_module_version (m : Manifest) (module : ModName) (remote : Remote)
    (path : RepoPath) : Option Sha :=
  match findRepo m remote with
  | none => none
  | some dirs =>
    match findDir dirs path with
    | none => none
    | some mods => findMod mods module

def removeMod : ModMap → ModName → ModMap
  | [], _ => []
  | e :: es, n => if e.1 == n then es else e :: removeMod es n

/-- Modelled from the spec: `removeEntry(moduleName, remote, repoPath)`
(`ModulesJson.remove_entry`, not under src/): removes the one matching leaf
entry; no-op if absent. Keys are unique (dict), so at most one leaf goes. -/
def remove_entry (m : Manifest) (module : ModName) (remote : Remote)
    (path : RepoPath) : Manifest :=
  m.map fun rc =>
    if rc.1 == remote then
      (rc.1, rc.2.map fun d => if d.1 == path then (d.1, removeMod d.2 module) else d)
    else rc

/-- The force-purge manifest scan, install.py lines 127-136: iterate every
repo url of the manifest; inside each repository record, the entry whose
dir equals the target repo path and whose name equals the module is removed
via `remove_entry` (the match condition compares only dir and name, not the
remote). With unique dict keys this is one removal per matching remote. -/
def forceRemoveMatching (m : Manifest) (path : RepoPath) (module : ModName) : Manifest :=
  m.map fun rc =>
    (rc.1, rc.2.map fun d => if d.1 == path then (d.1, removeMod d.2 module) else d)

def upsertMod : ModMap → ModName → Sha → ModMap
  | [], n, v => [(n, v)]
  | e :: es, n, v => if e.1 == n then (n, v) :: es else e :: upsertMod es n v

def upsertDir : DirMap → RepoPath → ModName → Sha → DirMap
  | [], p, n, v => [(p, [(n, v)])]
  | e :: es, p, n, v => if e.1 == p then (e.1, upsertMod e.2 n v) :: es else e :: upsertDir es p n v

/-- Modelled from the spec: `recordInstall(remote, repoPath, moduleName, revision)`
followed by the atomic `save()` (`ModulesJson.update`, not under src/): upserts
the entry for the newly installed module. -/
def update : Manifest → Remote → RepoPath → ModName → Sha → Manifest
  | [], r, p, n, v => [(r, [(p, [(n, v)])])]
  | e :: es, r, p, n, v => if e.1 == r then (e.1, upsertDir e.2 p n v) :: es else e :: update es r p n v

/-- Modelled from the spec: `checkConsistency()` (`ModulesJson.check_up_to_date`,
not under src/): reconciles manifest entries against the module directory tree
before any install proceeds, restoring Invariant M1 by manifest bookkeeping
only — an entry whose module directory is absent is dropped; no files are
touched. -/
def check_up_to_date (m : Manifest) (fs : FsTree) : Manifest :=
  m.map fun rc => (rc.1, rc.2.map fun d => (d.1, d.2.filter fun e => fsHas fs (d.1, e.1)))

/-- Number of manifest leaf entries for the triple (remote, path, module). -/
def count_entries (m : Manifest) (remote : Remote) (path : RepoPath) (module : ModName) : Nat :=
  (m.map fun rc =>
    if rc.1 == remote then
      (rc.2.map fun d =>
        if d.1 == path then (d.2.filter fun e => e.1 == module).length else 0).sum
    else 0).sum

end ModulesJson

/-- Modelled from the spec: the remote registry client interface
(`modules_repo`, not under src/): catalog listing, branch-level existence,
pinned-revision existence, latest-revision query and file retrieval
(`fetchModuleFiles`; `none` models `MaterializationFailed`). -/
structure ModulesRepo where
  remote_url : Remote
  repo_path : RepoPath
  branch : String
  get_avail_modules : List ModName
  module_exists : ModName → Bool
  sha_exists_on_branch : Sha → Bool
  get_latest_module_version : ModName → Sha
  fetch_module_files : Sha → ModName → Option Files

/-- Modelled from the spec: the interactive prompt collaborator
(`questionary` / `prompt_module_version_sha`, not under src/): the module name
chosen when none was supplied, the answer to the force-reinstall confirmation,
and the interactively chosen revision (`none` models the `SystemError` raised
when the interaction yields nothing usable). -/
structure Prompts where
  choose_module : ModName
  confirm_force : Bool
  choose_version : Option Sha

/-- The `ModuleInstall` object: its request flags (`force`, `prompt`, `sha`)
plus the two ambient conditions install() reads first (`self.repo_type ==
"modules"` and `self.has_valid_directory()`). -/
structure ModuleInstall where
  force : Bool
  prompt : Bool
  sha : Option Sha
  repo_type_is_modules : Bool
  has_valid_directory : Bool
  deriving DecidableEq, Repr

/-- Observable effects of one install() run, in program order. -/
inductive Event where
  | checkStructure : Event
  | checkUpToDate : Event
  | remoteAvail : Event
  | remoteShaExists : Event
  | remoteModuleExists : Event
  | remoteLatest : Event
  | promptModuleName : Event
  | promptConfirmForce : Event
  | promptVersionSha : Event
  | purgeDir : Event
  | materialize : Bool → Event
  | manifestLoad : Event
  | manifestUpdate : Event
  deriving DecidableEq, Repr

/-- Which events reach out to the remote registry. -/
def Event.isRemoteCall : Event → Bool
  | remoteAvail => true
  | remoteShaExists => true
  | remoteModuleExists => true
  | remoteLatest => true
  | promptVersionSha => true
  | materialize _ => true
  | _ => false

/-- The distinct `return False` sites of install(), in source order. -/
inductive InstallErr where
  | selfInstall : InstallErr
  | invalidDir : InstallErr
  | usageError : InstallErr
  | shaNotFound : InstallErr
  | notInCatalog : InstallErr
  | notOnBranch : InstallErr
  | alreadyInstalled : InstallErr
  | promptVersionFailed : InstallErr
  | materializeFailed : InstallErr
  deriving DecidableEq, Repr

/-- The persistent state install() acts on: the manifest and the module tree. -/
structure PState where
  manifest : Manifest
  fsTree : FsTree
  deriving DecidableEq, Repr

/-- Outcome of one install() run: the returned boolean, the failure reason (by
return site), the `self` object as left behind (its `force` field may have
been mutated), the final state, and the effect trace. -/
structure InstallResult where
  success : Bool
  err : Option InstallErr
  self : ModuleInstall
  state : PState
  trace : List Event
  deriving DecidableEq, Repr

/-- install.py lines 124-155: the force purge (directory clear at line 126,
manifest scan at lines 127-136), then materialization (line 142) and, only on
its success, the manifest reload and record (lines 153-154). -/
def installFinish (self : ModuleInstall) (repo : ModulesRepo) (module : ModName)
    (version : Sha) (st : PState) (tr : List Event) : InstallResult :=
  let st1 : PState :=
    if self.force then
      ⟨ModulesJson.forceRemoveMatching st.manifest repo.repo_path module,
       clear_module_dir st.fsTree (repo.repo_path, module)⟩
    else st
  let tr1 := if self.force then tr ++ [Event.purgeDir] else tr
  match repo.fetch_module_files version module with
  | none => ⟨false, some .materializeFailed, self, st1, tr1 ++ [Event.materialize false]⟩
  | some files =>
    let fs2 := clear_module_dir st1.fsTree (repo.repo_path, module) ++ [((repo.repo_path, module), files)]
    let man2 := ModulesJson.update st1.manifest repo.remote_url repo.repo_path module version
    ⟨true, none, self, ⟨man2, fs2⟩,
      tr1 ++ [Event.materialize true, Event.manifestLoad, Event.manifestUpdate]⟩

/-- install.py lines 110-122: the prompt / latest fallthrough of version
resolution — the interactive prompt (whose SystemError is the `none` answer),
else the latest revision for the module — reached when `self.sha` is falsy
(None or the empty string). -/
def installVersionPrompt (self : ModuleInstall) (repo : ModulesRepo) (pr : Prompts)
    (module : ModName) (st : PState) (tr : List Event) : InstallResult :=
  if self.prompt then
    match pr.choose_version with
    | none => ⟨false, some .promptVersionFailed, self, st, tr ++ [Event.promptVersionSha]⟩
    | some v => installFinish self repo module v st (tr ++ [Event.promptVersionSha])
  else
    installFinish self repo module (repo.get_latest_module_version module) st
      (tr ++ [Event.remoteLatest])

/-- install.py lines 108-122: version resolution. Line 108 is Python
truthiness `if self.sha:` — a pinned revision is used only when it is a
nonempty string; None and the empty string both fall through to the
prompt / latest branches. -/
def installVersioned (self : ModuleInstall) (repo : ModulesRepo) (pr : Prompts)
    (module : ModName) (st : PState) (tr : List Event) : InstallResult :=
  match self.sha with
  | some s =>
    if s != "" then installFinish self repo module s st tr
    else installVersionPrompt self repo pr module st tr
  | none => installVersionPrompt self repo pr module st tr

/-- install.py lines 77-106: look up the currently installed revision; when an
entry exists, the directory exists and force is not set, ask the
force-reinstall confirmation, assign its answer to `self.force` (line 91) and
abort when it is negative. -/
def installMain (self : ModuleInstall) (repo : ModulesRepo) (pr : Prompts)
    (module : ModName) (st : PState) (tr : List Event) : InstallResult :=
  let current := ModulesJson.get_module_version st.manifest module repo.remote_url repo.repo_path
  if current.isSome && fsHas st.fsTree (repo.repo_path, module) && !self.force then
    let self' : ModuleInstall := { self with force := pr.confirm_force }
    if self'.force then
      installVersioned self' repo pr module st (tr ++ [Event.promptConfirmForce])
    else
      ⟨false, some .alreadyInstalled, self', st, tr ++ [Event.promptConfirmForce]⟩
  else
    installVersioned self repo pr module st tr

/-- install.py lines 57-75: resolve the module name (prompting over the
catalog when none was supplied), the catalog-membership check (line 65, with
Python truthiness: the check is skipped for a falsy name) and the stricter
branch-existence check (line 70). -/
def installNamed (self : ModuleInstall) (repo : ModulesRepo) (pr : Prompts)
    (module? : Option ModName) (st : PState) (tr : List Event) : InstallResult :=
  let module := match module? with
    | none => pr.choose_module
    | some m => m
  let tr1 := match module? with
    | none => tr ++ [Event.remoteAvail, Event.promptModuleName]
    | some _ => tr
  if module != "" && !(repo.get_avail_modules.contains module) then
    ⟨false, some .notInCatalog, self, st, tr1 ++ [Event.remoteAvail]⟩
  else
    let tr2 := if module != "" then tr1 ++ [Event.remoteAvail] else tr1
    if !(repo.module_exists module) then
      ⟨false, some .notOnBranch, self, st, tr2 ++ [Event.remoteModuleExists]⟩
    else
      installMain self repo pr module st (tr2 ++ [Event.remoteModuleExists])

/-- The orchestrator ModuleInstall.install (install.py lines 32-155): the self-install guard
(line 33), directory validation (line 37), structure check (line 41), manifest
consistency check (lines 44-45), the sha/prompt mutual-exclusivity check
(line 47, which tests `is not None`, so an empty sha still counts), the
pinned-sha existence check (lines 52-55, guarded by Python truthiness
`if self.sha:` — a None or empty sha skips it), then name resolution,
planning and materialization. `silent` only suppresses the
post-install usage hint (lines 145-150) and has no observable effect here. -/
def ModuleInstall.install (self : ModuleInstall) (repo : ModulesRepo) (pr : Prompts)
    (module? : Option ModName) (silent : Bool) (st : PState) : InstallResult :=
  if self.repo_type_is_modules then
    ⟨false, some .selfInstall, self, st, []⟩
  else if !self.has_valid_directory then
    ⟨false, some .invalidDir, self, st, []⟩
  else
    let _ := silent
    let st0 : PState := ⟨ModulesJson.check_up_to_date st.manifest st.fsTree, st.fsTree⟩
    let tr0 := [Event.checkStructure, Event.checkUpToDate]
    if self.prompt && self.sha.isSome then
      ⟨false, some .usageError, self, st0, tr0⟩
    else
      match self.sha with
      | some s =>
        if s != "" then
          if !repo.sha_exists_on_branch s then
            ⟨false, some .shaNotFound, self, st0, tr0 ++ [Event.remoteShaExists]⟩
          else
            installNamed self repo pr module? st0 (tr0 ++ [Event.remoteShaExists])
        else
          installNamed self repo pr module? st0 tr0
      | none => installNamed self repo pr module? st0 tr0

/-! ### Generic lemmas about the nested manifest mappings -/

/-- Per-dir uniqueness of module-name keys: what Python dict semantics
guarantee for the innermost mapping of modules.json. -/
def leafNodup (m : Manifest) : Prop :=
  ∀ rc ∈ m, ∀ d ∈ rc.2, (d.2.map Prod.fst).Nodup

instance : DecidablePred leafNodup := fun m =>
  List.decidableBAll _ m

namespace ModulesJson

theorem findRepo_map (g : DirMap → DirMap) (m : Manifest) (r : Remote) :
    findRepo (m.map fun rc => (rc.1, g rc.2)) r = (findRepo m r).map g := by
  induction m with
  | nil => rfl
  | cons e es ih => cases h : (e.1 == r) <;> simp [findRepo, h, ih]

theorem findDir_mapKey (g : RepoPath → ModMap → ModMap) (dirs : DirMap) (p : RepoPath) :
    findDir (dirs.map fun d => (d.1, g d.1 d.2)) p = (findDir dirs p).map (g p) := by
  induction dirs with
  | nil => rfl
  | cons d ds ih =>
    cases h : (d.1 == p) with
    | false => simp [findDir, h, ih]
    | true => simp [findDir, h]; rw [eq_of_beq h]

theorem findRepo_mem (m : Manifest) (r : Remote) (dirs : DirMap)
    (h : findRepo m r = some dirs) : ∃ rc ∈ m, rc.2 = dirs := by
  induction m with
  | nil => simp [findRepo] at h
  | cons e es ih =>
    by_cases hb : (e.1 == r) = true
    · simp [findRepo, hb] at h
      exact ⟨e, by simp, h⟩
    · simp [findRepo, hb] at h
      obtain ⟨rc, hrc, hr2⟩ := ih h
      exact ⟨rc, by simp [hrc], hr2⟩

theorem findDir_mem (dirs : DirMap) (p : RepoPath) (mods : ModMap)
    (h : findDir dirs p = some mods) : ∃ d ∈ dirs, d.2 = mods := by
  induction dirs with
  | nil => simp [findDir] at h
  | cons e es ih =>
    by_cases hb : (e.1 == p) = true
    · simp [findDir, hb] at h
      exact ⟨e, by simp, h⟩
    · simp [findDir, hb] at h
      obtain ⟨d, hd, hd2⟩ := ih h
      exact ⟨d, by simp [hd], hd2⟩

theorem findMod_eq_none (mods : ModMap) (x : ModName) (h : x ∉ mods.map Prod.fst) :
    findMod mods x = none := by
  induction mods with
  | nil => rfl
  | cons e es ih =>
    simp only [List.map_cons, List.mem_cons, not_or] at h
    have hb : (e.1 == x) = false := beq_eq_false_iff_ne.mpr (Ne.symm h.1)
    simp [findMod, hb, ih h.2]

theorem findMod_removeMod_self (mods : ModMap) (x : ModName)
    (h : (mods.map Prod.fst).Nodup) : findMod (removeMod mods x) x = none := by
  induction mods with
  | nil => rfl
  | cons e es ih =>
    simp only [List.map_cons, List.nodup_cons] at h
    cases hb : (e.1 == x) with
    | true =>
      have hx : x ∉ es.map Prod.fst := (eq_of_beq hb) ▸ h.1
      simp [removeMod, hb, findMod_eq_none es x hx]
    | false => simp [removeMod, hb, findMod, ih h.2]

theorem findMod_removeMod_ne (mods : ModMap) (x m' : ModName) (h : m' ≠ x) :
    findMod (removeMod mods x) m' = findMod mods m' := by
  induction mods with
  | nil => rfl
  | cons e es ih =>
    cases hb : (e.1 == x) with
    | true =>
      have h1 : (e.1 == m') = false :=
        beq_eq_false_iff_ne.mpr (by rw [eq_of_beq hb]; exact Ne.symm h)
      simp [removeMod, hb, findMod, h1]
    | false => simp [removeMod, hb, findMod, ih]

theorem findMod_filter_eq_some (q : ModName × Sha → Bool) (mods : ModMap) (x : ModName) (v : Sha)
    (h : findMod (mods.filter q) x = some v) : q (x, v) = true := by
  induction mods with
  | nil => simp [findMod] at h
  | cons e es ih =>
    obtain ⟨k, w⟩ := e
    cases hq : q (k, w) with
    | true =>
      rw [List.filter_cons_of_pos hq] at h
      cases hb : (k == x) with
      | true =>
        rw [findMod, hb] at h
        simp only [if_true, Option.some.injEq] at h
        rw [← eq_of_beq hb, ← h]
        exact hq
      | false =>
        rw [findMod, hb] at h
        simp at h
        exact ih h
    | false =>
      rw [List.filter_cons_of_neg (by simp [hq])] at h
      exact ih h

end ModulesJson

namespace ModulesJson

theorem findMod_filter_keyTrue (q : ModName × Sha → Bool) (mods : ModMap) (x : ModName)
    (hq : ∀ w, q (x, w) = true) : findMod (mods.filter q) x = findMod mods x := by
  induction mods with
  | nil => rfl
  | cons e es ih =>
    obtain ⟨k, w⟩ := e
    cases hqe : q (k, w) with
    | true => rw [List.filter_cons_of_pos hqe, findMod, findMod, ih]
    | false =>
      have hb : (k == x) = false := by
        cases hbb : (k == x) with
        | false => rfl
        | true => rw [eq_of_beq hbb, hq w] at hqe; exact hqe
      rw [List.filter_cons_of_neg (by simp [hqe]), findMod, hb, ih]
      simp

/-- The inner map of `forceRemoveMatching` written with the transformation as a
function of the dir key, for the `findDir_mapKey` rewriting. -/
theorem forceRemove_inner_eq (p : RepoPath) (x : ModName) :
    (fun d : RepoPath × ModMap => if d.1 == p then (d.1, removeMod d.2 x) else d)
      = fun d : RepoPath × ModMap => (d.1, if d.1 == p then removeMod d.2 x else d.2) := by
  funext d
  cases hb : (d.1 == p) <;> simp [hb]

/-- After the force-purge scan, the target (repo path, module) pair resolves to
no revision under any remote at all. -/
theorem get_forceRemove_self (m : Manifest) (p : RepoPath) (x : ModName) (r : Remote)
    (h : leafNodup m) : get_module_version (forceRemoveMatching m p x) x r p = none := by
  unfold forceRemoveMatching get_module_version
  rw [forceRemove_inner_eq,
    findRepo_map (g := fun dirs => dirs.map fun d =>
      (d.1, if d.1 == p then removeMod d.2 x else d.2)) m r]
  cases hr : findRepo m r with
  | none => rfl
  | some dirs =>
    simp only [Option.map_some']
    rw [findDir_mapKey (fun k mods => if k == p then removeMod mods x else mods) dirs p]
    cases hd : findDir dirs p with
    | none => rfl
    | some mods =>
      simp only [Option.map_some', beq_self_eq_true, if_true]
      obtain ⟨rc, hrc, hrc2⟩ := findRepo_mem m r dirs hr
      obtain ⟨d, hd0, hd2⟩ := findDir_mem dirs p mods hd
      exact findMod_removeMod_self mods x (hd2 ▸ (h rc hrc d (hrc2 ▸ hd0)))

/-- The force-purge scan touches no (repo path, module) pair other than the
target one: every other triple resolves as before. -/
theorem get_forceRemove_frame (m : Manifest) (p : RepoPath) (x : ModName)
    (r : Remote) (p' : RepoPath) (m' : ModName) (h : p' ≠ p ∨ m' ≠ x) :
    get_module_version (forceRemoveMatching m p x) m' r p'
      = get_module_version m m' r p' := by
  unfold forceRemoveMatching get_module_version
  rw [forceRemove_inner_eq,
    findRepo_map (g := fun dirs => dirs.map fun d =>
      (d.1, if d.1 == p then removeMod d.2 x else d.2)) m r]
  cases hr : findRepo m r with
  | none => rfl
  | some dirs =>
    simp only [Option.map_some']
    rw [findDir_mapKey (fun k mods => if k == p then removeMod mods x else mods) dirs p']
    cases hd : findDir dirs p' with
    | none => rfl
    | some mods =>
      simp only [Option.map_some']
      by_cases hp : p' = p
      · have hm : m' ≠ x := by
          rcases h with h | h
          · exact absurd hp h
          · exact h
        simp only [hp, beq_self_eq_true, if_true]
        exact findMod_removeMod_ne mods x m' hm
      · simp [beq_eq_false_iff_ne.mpr hp]

/-- Any entry surviving the consistency check has its module directory
present: this is the direction of Invariant M1 the check restores. -/
theorem get_check_has_dir (m : Manifest) (fs : FsTree) (x : ModName) (r : Remote)
    (p : RepoPath) (v : Sha)
    (h : get_module_version (check_up_to_date m fs) x r p = some v) :
    fsHas fs (p, x) = true := by
  unfold check_up_to_date get_module_version at h
  rw [findRepo_map (g := fun dirs => dirs.map fun d =>
      (d.1, d.2.filter fun e => fsHas fs (d.1, e.1))) m r] at h
  cases hr : findRepo m r with
  | none => rw [hr] at h; simp at h
  | some dirs =>
    rw [hr] at h
    simp only [Option.map_some'] at h
    rw [findDir_mapKey (fun k mods => mods.filter fun e => fsHas fs (k, e.1)) dirs p] at h
    cases hd : findDir dirs p with
    | none => rw [hd] at h; simp at h
    | some mods =>
      rw [hd] at h
      simp only [Option.map_some'] at h
      exact findMod_filter_eq_some _ mods x v h

/-- When the module directory of (p, x) is present, the consistency check
leaves the (r, p, x) lookup unchanged. -/
theorem get_check_preserve (m : Manifest) (fs : FsTree) (x : ModName) (r : Remote)
    (p : RepoPath) (hfs : fsHas fs (p, x) = true) :
    get_module_version (check_up_to_date m fs) x r p = get_module_version m x r p := by
  unfold check_up_to_date get_module_version
  rw [findRepo_map (g := fun dirs => dirs.map fun d =>
      (d.1, d.2.filter fun e => fsHas fs (d.1, e.1))) m r]
  cases hr : findRepo m r with
  | none => rfl
  | some dirs =>
    simp only [Option.map_some']
    rw [findDir_mapKey (fun k mods => mods.filter fun e => fsHas fs (k, e.1)) dirs p]
    cases hd : findDir dirs p with
    | none => rfl
    | some mods =>
      simp only [Option.map_some']
      exact findMod_filter_keyTrue _ mods x (fun w => hfs)

theorem leafNodup_check (m : Manifest) (fs : FsTree) (h : leafNodup m) :
    leafNodup (check_up_to_date m fs) := by
  intro rc hrc d hd
  unfold check_up_to_date at hrc
  obtain ⟨rc0, hrc0, rfl⟩ := List.mem_map.mp hrc
  obtain ⟨d0, hd0, rfl⟩ := List.mem_map.mp hd
  exact List.Nodup.sublist ((List.filter_sublist _).map _) (h rc0 hrc0 d0 hd0)

theorem findMod_upsertMod_self (mods : ModMap) (x : ModName) (v : Sha) :
    findMod (upsertMod mods x v) x = some v := by
  induction mods with
  | nil => simp [upsertMod, findMod]
  | cons e es ih =>
    cases hb : (e.1 == x) with
    | true => simp [upsertMod, hb, findMod]
    | false => simp [upsertMod, hb, findMod, ih]

theorem findDir_upsertDir (dirs : DirMap) (p : RepoPath) (x : ModName) (v : Sha) :
    ∃ mods, findDir (upsertDir dirs p x v) p = some mods ∧ findMod mods x = some v := by
  induction dirs with
  | nil =>
    refine ⟨[(x, v)], ?_, ?_⟩ <;> simp [upsertDir, findDir, findMod]
  | cons e es ih =>
    cases hb : (e.1 == p) with
    | true =>
      exact ⟨upsertMod e.2 x v, by simp [upsertDir, hb, findDir],
        findMod_upsertMod_self e.2 x v⟩
    | false =>
      obtain ⟨mods, h1, h2⟩ := ih
      exact ⟨mods, by simp [upsertDir, hb, findDir, h1], h2⟩

/-- Recording an install makes the recorded triple resolve to the recorded
revision. -/
theorem get_update_self (m : Manifest) (r : Remote) (p : RepoPath) (x : ModName) (v : Sha) :
    get_module_version (update m r p x v) x r p = some v := by
  induction m with
  | nil => simp [update, get_module_version, findRepo, findDir, findMod, upsertDir, upsertMod]
  | cons e es ih =>
    cases hb : (e.1 == r) with
    | true =>
      obtain ⟨mods, h1, h2⟩ := findDir_upsertDir e.2 p x v
      simp [update, hb, get_module_version, findRepo, h1, h2]
    | false =>
      simpa [update, hb, get_module_version, findRepo] using ih

end ModulesJson

theorem fsHas_clear_self (fs : FsTree) (k : RepoPath × ModName) :
    fsHas (clear_module_dir fs k) k = false := by
  induction fs with
  | nil => rfl
  | cons e es ih =>
    cases hb : (e.1 == k) with
    | true =>
      have : (e.1 != k) = false := by simp [bne, hb]
      simp [clear_module_dir, List.filter_cons, this] at ih ⊢
      exact ih
    | false =>
      have : (e.1 != k) = true := by simp [bne, hb]
      simp [clear_module_dir, List.filter_cons, this, fsHas, hb]

theorem fsGet_clear_append (fs : FsTree) (k : RepoPath × ModName) (files : Files) :
    fsGet (clear_module_dir fs k ++ [(k, files)]) k = some files := by
  induction fs with
  | nil => simp [clear_module_dir, fsGet, List.find?]
  | cons e es ih =>
    cases hb : (e.1 == k) with
    | true =>
      have : (e.1 != k) = false := by simp [bne, hb]
      simpa [clear_module_dir, List.filter_cons, this] using ih
    | false =>
      have h1 : (e.1 != k) = true := by simp [bne, hb]
      simp only [clear_module_dir, List.filter_cons, h1] at ih ⊢
      simp only [if_true, List.cons_append, fsGet, List.find?, hb] at ih ⊢
      exact ih

/-! ### Stage lemmas about the install pipeline -/

theorem installFinish_self (s : ModuleInstall) (repo : ModulesRepo) (m : ModName)
    (v : Sha) (st : PState) (tr : List Event) :
    (installFinish s repo m v st tr).self = s := by
  unfold installFinish
  cases h : repo.fetch_module_files v m <;> simp [h]

theorem installVersionPrompt_self (s : ModuleInstall) (repo : ModulesRepo) (pr : Prompts)
    (m : ModName) (st : PState) (tr : List Event) :
    (installVersionPrompt s repo pr m st tr).self = s := by
  unfold installVersionPrompt
  cases hp : s.prompt <;> simp only [Bool.false_eq_true, if_false, if_true]
  · exact installFinish_self ..
  · cases hv : pr.choose_version with
    | none => rfl
    | some v => exact installFinish_self ..

theorem installVersioned_self (s : ModuleInstall) (repo : ModulesRepo) (pr : Prompts)
    (m : ModName) (st : PState) (tr : List Event) :
    (installVersioned s repo pr m st tr).self = s := by
  unfold installVersioned
  cases hs : s.sha with
  | some sh =>
    cases ht : (sh != "") with
    | true =>
      simp only [ht, if_true]
      exact installFinish_self ..
    | false =>
      simp only [ht, Bool.false_eq_true, if_false]
      exact installVersionPrompt_self ..
  | none => exact installVersionPrompt_self ..

theorem installFinish_err_cases (s : ModuleInstall) (repo : ModulesRepo) (m : ModName)
    (v : Sha) (st : PState) (tr : List Event) :
    (installFinish s repo m v st tr).err = none ∨
    (installFinish s repo m v st tr).err = some InstallErr.materializeFailed := by
  unfold installFinish
  cases h : repo.fetch_module_files v m <;> simp [h]

theorem installVersionPrompt_err_cases (s : ModuleInstall) (repo : ModulesRepo) (pr : Prompts)
    (m : ModName) (st : PState) (tr : List Event) :
    (installVersionPrompt s repo pr m st tr).err = none ∨
    (installVersionPrompt s repo pr m st tr).err = some InstallErr.materializeFailed ∨
    (installVersionPrompt s repo pr m st tr).err = some InstallErr.promptVersionFailed := by
  unfold installVersionPrompt
  cases hp : s.prompt <;> simp only [Bool.false_eq_true, if_false, if_true]
  · rcases installFinish_err_cases s repo m (repo.get_latest_module_version m) st
      (tr ++ [Event.remoteLatest]) with h | h <;> simp [h]
  · cases hv : pr.choose_version with
    | none => simp
    | some v =>
      rcases installFinish_err_cases s repo m v st (tr ++ [Event.promptVersionSha]) with
        h | h <;> simp [h]

theorem installVersioned_err_cases (s : ModuleInstall) (repo : ModulesRepo) (pr : Prompts)
    (m : ModName) (st : PState) (tr : List Event) :
    (installVersioned s repo pr m st tr).err = none ∨
    (installVersioned s repo pr m st tr).err = some InstallErr.materializeFailed ∨
    (installVersioned s repo pr m st tr).err = some InstallErr.promptVersionFailed := by
  unfold installVersioned
  cases hs : s.sha with
  | some sh =>
    cases ht : (sh != "") with
    | true =>
      simp only [ht, if_true]
      rcases installFinish_err_cases s repo m sh st tr with h | h <;> simp [h]
    | false =>
      simp only [ht, Bool.false_eq_true, if_false]
      exact installVersionPrompt_err_cases ..
  | none => exact installVersionPrompt_err_cases ..

theorem installMain_err_cases (s : ModuleInstall) (repo : ModulesRepo) (pr : Prompts)
    (m : ModName) (st : PState) (tr : List Event) :
    (installMain s repo pr m st tr).err = none ∨
    (installMain s repo pr m st tr).err = some InstallErr.materializeFailed ∨
    (installMain s repo pr m st tr).err = some InstallErr.promptVersionFailed ∨
    (installMain s repo pr m st tr).err = some InstallErr.alreadyInstalled := by
  unfold installMain
  dsimp only
  split
  · split
    · rcases installVersioned_err_cases { s with force := pr.confirm_force } repo pr m st
        (tr ++ [Event.promptConfirmForce]) with h | h | h <;> simp [h]
    · simp
  · rcases installVersioned_err_cases s repo pr m st tr with h | h | h <;> simp [h]

theorem finish_no_entry (s : ModuleInstall) (repo : ModulesRepo) (m : ModName) (v : Sha)
    (st : PState) (tr : List Event)
    (hleaf : leafNodup st.manifest)
    (hnf : s.force = false →
      ModulesJson.get_module_version st.manifest m repo.remote_url repo.repo_path = none)
    (htr : Event.manifestUpdate ∉ tr)
    (h : (installFinish s repo m v st tr).err = some InstallErr.materializeFailed) :
    ModulesJson.get_module_version (installFinish s repo m v st tr).state.manifest m
      repo.remote_url repo.repo_path = none ∧
    Event.manifestUpdate ∉ (installFinish s repo m v st tr).trace := by
  unfold installFinish at h ⊢
  cases hf : repo.fetch_module_files v m with
  | some files => simp [hf] at h
  | none =>
    simp only [hf] at h ⊢
    cases hforce : s.force with
    | true =>
      refine ⟨?_, ?_⟩
      · simpa [hforce] using
          ModulesJson.get_forceRemove_self st.manifest repo.repo_path m repo.remote_url hleaf
      · simp [hforce, htr]
    | false =>
      refine ⟨?_, ?_⟩
      · simpa [hforce] using hnf hforce
      · simp [hforce, htr]

theorem prompt_no_entry (s : ModuleInstall) (repo : ModulesRepo) (pr : Prompts)
    (m : ModName) (st : PState) (tr : List Event)
    (hleaf : leafNodup st.manifest)
    (hnf : s.force = false →
      ModulesJson.get_module_version st.manifest m repo.remote_url repo.repo_path = none)
    (htr : Event.manifestUpdate ∉ tr)
    (h : (installVersionPrompt s repo pr m st tr).err = some InstallErr.materializeFailed) :
    ModulesJson.get_module_version (installVersionPrompt s repo pr m st tr).state.manifest m
      repo.remote_url repo.repo_path = none ∧
    Event.manifestUpdate ∉ (installVersionPrompt s repo pr m st tr).trace := by
  unfold installVersionPrompt at h ⊢
  cases hp : s.prompt with
  | true =>
    simp only [hp, if_true] at h ⊢
    cases hv : pr.choose_version with
    | none => simp only [hv] at h; simp at h
    | some v =>
      simp only [hv] at h ⊢
      exact finish_no_entry s repo m v st (tr ++ [Event.promptVersionSha]) hleaf hnf
        (by simp [htr]) h
  | false =>
    simp only [hp, Bool.false_eq_true, if_false] at h ⊢
    exact finish_no_entry s repo m (repo.get_latest_module_version m) st
      (tr ++ [Event.remoteLatest]) hleaf hnf (by simp [htr]) h

theorem versioned_no_entry (s : ModuleInstall) (repo : ModulesRepo) (pr : Prompts)
    (m : ModName) (st : PState) (tr : List Event)
    (hleaf : leafNodup st.manifest)
    (hnf : s.force = false →
      ModulesJson.get_module_version st.manifest m repo.remote_url repo.repo_path = none)
    (htr : Event.manifestUpdate ∉ tr)
    (h : (installVersioned s repo pr m st tr).err = some InstallErr.materializeFailed) :
    ModulesJson.get_module_version (installVersioned s repo pr m st tr).state.manifest m
      repo.remote_url repo.repo_path = none ∧
    Event.manifestUpdate ∉ (installVersioned s repo pr m st tr).trace := by
  unfold installVersioned at h ⊢
  cases hs : s.sha with
  | some sh =>
    simp only [hs] at h ⊢
    cases ht : (sh != "") with
    | true =>
      simp only [ht, if_true] at h ⊢
      exact finish_no_entry s repo m sh st tr hleaf hnf htr h
    | false =>
      simp only [ht, Bool.false_eq_true, if_false] at h ⊢
      exact prompt_no_entry s repo pr m st tr hleaf hnf htr h
  | none =>
    simp only [hs] at h ⊢
    exact prompt_no_entry s repo pr m st tr hleaf hnf htr h

theorem main_no_entry (s : ModuleInstall) (repo : ModulesRepo) (pr : Prompts)
    (m : ModName) (st : PState) (tr : List Event)
    (hleaf : leafNodup st.manifest)
    (hdir : ∀ v, ModulesJson.get_module_version st.manifest m repo.remote_url repo.repo_path
      = some v → fsHas st.fsTree (repo.repo_path, m) = true)
    (htr : Event.manifestUpdate ∉ tr)
    (h : (installMain s repo pr m st tr).err = some InstallErr.materializeFailed) :
    ModulesJson.get_module_version (installMain s repo pr m st tr).state.manifest m
      repo.remote_url repo.repo_path = none ∧
    Event.manifestUpdate ∉ (installMain s repo pr m st tr).trace := by
  unfold installMain at h ⊢
  dsimp only at h ⊢
  split at h
  case isTrue hc =>
    rw [if_pos hc]
    split at h
    case isTrue hcf =>
      rw [if_pos hcf]
      exact versioned_no_entry _ repo pr m st (tr ++ [Event.promptConfirmForce]) hleaf
        (fun hf => absurd (hf.symm.trans hcf) (by simp)) (by simp [htr]) h
    case isFalse hcf =>
      simp at h
  case isFalse hc =>
    rw [if_neg hc]
    refine versioned_no_entry s repo pr m st tr hleaf ?_ htr h
    intro hf
    cases hcur : ModulesJson.get_module_version st.manifest m repo.remote_url repo.repo_path with
    | none => rfl
    | some v =>
      exact absurd (by simp [hcur, hdir v hcur, hf]) hc

/-- The module name an install() run acts on: the argument, or the
interactively chosen name when the argument was absent (install.py 57-62). -/
def resolvedName (module? : Option ModName) (pr : Prompts) : ModName :=
  match module? with
  | none => pr.choose_module
  | some m => m

theorem named_no_entry (s : ModuleInstall) (repo : ModulesRepo) (pr : Prompts)
    (module? : Option ModName) (st : PState) (tr : List Event)
    (hleaf : leafNodup st.manifest)
    (hdir : ∀ v, ModulesJson.get_module_version st.manifest (resolvedName module? pr)
      repo.remote_url repo.repo_path = some v →
      fsHas st.fsTree (repo.repo_path, resolvedName module? pr) = true)
    (htr : Event.manifestUpdate ∉ tr)
    (h : (installNamed s repo pr module? st tr).err = some InstallErr.materializeFailed) :
    ModulesJson.get_module_version (installNamed s repo pr module? st tr).state.manifest
      (resolvedName module? pr) repo.remote_url repo.repo_path = none ∧
    Event.manifestUpdate ∉ (installNamed s repo pr module? st tr).trace := by
  unfold installNamed at h ⊢
  dsimp only at h ⊢
  split at h
  case isTrue hc => simp at h
  case isFalse hc =>
    rw [if_neg hc]
    split at h
    case isTrue he => simp at h
    case isFalse he =>
      rw [if_neg he]
      cases module? with
      | none =>
        simp only [resolvedName] at hdir ⊢
        dsimp only at h ⊢
        refine main_no_entry s repo pr pr.choose_module st _ hleaf hdir ?_ h
        split <;> simp [htr]
      | some m =>
        simp only [resolvedName] at hdir ⊢
        dsimp only at h ⊢
        refine main_no_entry s repo pr m st _ hleaf hdir ?_ h
        split <;> simp [htr]

theorem installFinish_success_iff (s : ModuleInstall) (repo : ModulesRepo) (m : ModName)
    (v : Sha) (st : PState) (tr : List Event) :
    (installFinish s repo m v st tr).success = (installFinish s repo m v st tr).err.isNone := by
  unfold installFinish
  cases h : repo.fetch_module_files v m <;> simp [h]

theorem installVersionPrompt_success_iff (s : ModuleInstall) (repo : ModulesRepo)
    (pr : Prompts) (m : ModName) (st : PState) (tr : List Event) :
    (installVersionPrompt s repo pr m st tr).success
      = (installVersionPrompt s repo pr m st tr).err.isNone := by
  unfold installVersionPrompt
  cases hp : s.prompt <;> simp only [Bool.false_eq_true, if_false, if_true]
  · exact installFinish_success_iff ..
  · cases hv : pr.choose_version with
    | none => rfl
    | some v => exact installFinish_success_iff ..

theorem installVersioned_success_iff (s : ModuleInstall) (repo : ModulesRepo) (pr : Prompts)
    (m : ModName) (st : PState) (tr : List Event) :
    (installVersioned s repo pr m st tr).success
      = (installVersioned s repo pr m st tr).err.isNone := by
  unfold installVersioned
  cases hs : s.sha with
  | some sh =>
    cases ht : (sh != "") with
    | true =>
      simp only [ht, if_true]
      exact installFinish_success_iff ..
    | false =>
      simp only [ht, Bool.false_eq_true, if_false]
      exact installVersionPrompt_success_iff ..
  | none => exact installVersionPrompt_success_iff ..

theorem installMain_success_iff (s : ModuleInstall) (repo : ModulesRepo) (pr : Prompts)
    (m : ModName) (st : PState) (tr : List Event) :
    (installMain s repo pr m st tr).success = (installMain s repo pr m st tr).err.isNone := by
  unfold installMain
  dsimp only
  split
  · split
    · exact installVersioned_success_iff ..
    · rfl
  · exact installVersioned_success_iff ..

theorem installNamed_success_iff (s : ModuleInstall) (repo : ModulesRepo) (pr : Prompts)
    (module? : Option ModName) (st : PState) (tr : List Event) :
    (installNamed s repo pr module? st tr).success
      = (installNamed s repo pr module? st tr).err.isNone := by
  unfold installNamed
  dsimp only
  split
  · rfl
  · split
    · rfl
    · exact installMain_success_iff ..

theorem install_success_iff (self : ModuleInstall) (repo : ModulesRepo) (pr : Prompts)
    (module? : Option ModName) (silent : Bool) (st : PState) :
    (self.install repo pr module? silent st).success
      = (self.install repo pr module? silent st).err.isNone := by
  unfold ModuleInstall.install
  dsimp only
  split
  · rfl
  · split
    · rfl
    · split
      · rfl
      · split
        · split
          · split
            · rfl
            · exact installNamed_success_iff ..
          · exact installNamed_success_iff ..
        · exact installNamed_success_iff ..

/-- C2: whenever materialization fails, the whole install returns failure, the
manifest afterwards holds no entry for the target module under the target
remote and repo path, and no manifest record-and-save step was performed (it
only happens after materialization fully succeeds). The manifest collaborator
is modelled from the spec; the initial manifest has dict-unique leaf keys. -/
theorem C2_no_manifest_entry_after_materialization_failure
    (self : ModuleInstall) (repo : ModulesRepo) (pr : Prompts) (module? : Option ModName)
    (silent : Bool) (st : PState)
    (hleaf : leafNodup st.manifest)
    (h : (self.install repo pr module? silent st).err = some InstallErr.materializeFailed) :
    (self.install repo pr module? silent st).success = false ∧
    ModulesJson.get_module_version (self.install repo pr module? silent st).state.manifest
      (resolvedName module? pr) repo.remote_url repo.repo_path = none ∧
    Event.manifestUpdate ∉ (self.install repo pr module? silent st).trace := by
  refine ⟨by rw [install_success_iff, h]; rfl, ?_⟩
  unfold ModuleInstall.install at h ⊢
  dsimp only at h ⊢
  split at h
  case isTrue => simp at h
  case isFalse h1 =>
    rw [if_neg h1]
    split at h
    case isTrue => simp at h
    case isFalse h2 =>
      rw [if_neg h2]
      split at h
      case isTrue => simp at h
      case isFalse h3 =>
        rw [if_neg h3]
        cases hs : self.sha with
        | none =>
          simp only [hs] at h ⊢
          exact named_no_entry self repo pr module? _ _
            (ModulesJson.leafNodup_check st.manifest st.fsTree hleaf)
            (fun v hv => ModulesJson.get_check_has_dir st.manifest st.fsTree _ _ _ v hv)
            (by simp) h
        | some sh =>
          simp only [hs] at h ⊢
          split at h
          case isTrue ht =>
            rw [if_pos ht]
            split at h
            case isTrue => simp at h
            case isFalse h4 =>
              rw [if_neg h4]
              exact named_no_entry self repo pr module? _ _
                (ModulesJson.leafNodup_check st.manifest st.fsTree hleaf)
                (fun v hv => ModulesJson.get_check_has_dir st.manifest st.fsTree _ _ _ v hv)
                (by simp) h
          case isFalse ht =>
            rw [if_neg ht]
            exact named_no_entry self repo pr module? _ _
              (ModulesJson.leafNodup_check st.manifest st.fsTree hleaf)
              (fun v hv => ModulesJson.get_check_has_dir st.manifest st.fsTree _ _ _ v hv)
              (by simp) h

namespace ModulesJson

theorem findMod_filter_none (q : ModName × Sha → Bool) (mods : ModMap) (x : ModName)
    (h : findMod mods x = none) : findMod (mods.filter q) x = none := by
  induction mods with
  | nil => rfl
  | cons e es ih =>
    by_cases hb : (e.1 == x) = true
    · rw [findMod, hb] at h
      simp at h
    · rw [findMod, eq_false_of_ne_true hb] at h
      simp only [Bool.false_eq_true, if_false] at h
      cases hq : q e with
      | true => rw [List.filter_cons_of_pos hq, findMod, eq_false_of_ne_true hb]
                simp only [Bool.false_eq_true, if_false]
                exact ih h
      | false => rw [List.filter_cons_of_neg (by simp [hq])]
                 exact ih h

/-- The consistency check never introduces entries: an absent triple stays
absent. -/
theorem get_check_none (m : Manifest) (fs : FsTree) (x : ModName) (r : Remote)
    (p : RepoPath) (h : get_module_version m x r p = none) :
    get_module_version (check_up_to_date m fs) x r p = none := by
  unfold get_module_version at h ⊢
  unfold check_up_to_date
  rw [findRepo_map (g := fun dirs => dirs.map fun d =>
      (d.1, d.2.filter fun e => fsHas fs (d.1, e.1))) m r]
  cases hr : findRepo m r with
  | none => rfl
  | some dirs =>
    rw [hr] at h
    dsimp only at h
    simp only [Option.map_some']
    rw [findDir_mapKey (fun k mods => mods.filter fun e => fsHas fs (k, e.1)) dirs p]
    cases hd : findDir dirs p with
    | none => rfl
    | some mods =>
      rw [hd] at h
      dsimp only at h
      simp only [Option.map_some']
      exact findMod_filter_none _ mods x h

end ModulesJson

/-- C6: with neither force nor a pinned sha nor interactive mode, and with no
prior installation, install resolves the latest revision of the module,
succeeds, records exactly that revision in the manifest and populates the
module directory with exactly the files fetched at that revision. -/
theorem C6_latest_version_default
    (self : ModuleInstall) (repo : ModulesRepo) (pr : Prompts) (st : PState)
    (X : ModName) (rev : Sha) (files : Files) (silent : Bool)
    (hrt : self.repo_type_is_modules = false)
    (hvd : self.has_valid_directory = true)
    (hforce : self.force = false)
    (hprompt : self.prompt = false)
    (hsha : self.sha = none)
    (hX : X ≠ "")
    (hav : repo.get_avail_modules.contains X = true)
    (hex : repo.module_exists X = true)
    (hlat : repo.get_latest_module_version X = rev)
    (hfetch : repo.fetch_module_files rev X = some files)
    (hnoprior : ModulesJson.get_module_version st.manifest X repo.remote_url repo.repo_path
      = none) :
    (self.install repo pr (some X) silent st).success = true ∧
    ModulesJson.get_module_version (self.install repo pr (some X) silent st).state.manifest
      X repo.remote_url repo.repo_path = some rev ∧
    fsGet (self.install repo pr (some X) silent st).state.fsTree (repo.repo_path, X)
      = some files := by
  have hX' : (X != "") = true := by simp [bne, beq_eq_false_iff_ne.mpr hX]
  have hcur : ModulesJson.get_module_version
      (ModulesJson.check_up_to_date st.manifest st.fsTree) X repo.remote_url repo.repo_path
      = none := ModulesJson.get_check_none st.manifest st.fsTree X _ _ hnoprior
  unfold ModuleInstall.install installNamed installMain installVersioned installVersionPrompt
    installFinish
  simp only [hrt, hvd, hprompt, hsha, hforce, hX', hav, hex, hlat, hfetch, hcur,
    Bool.false_and, Bool.not_true, Bool.false_eq_true, if_false, if_true,
    Bool.and_false, Bool.and_true, Option.isSome_none, Bool.false_or]
  refine ⟨trivial, ?_, ?_⟩
  · exact ModulesJson.get_update_self ..
  · exact fsGet_clear_append ..

/-- C7: a module already recorded in the manifest with its directory present,
reinstalled without force while the interactive collaborator declines the
escalation, yields failure and leaves both the manifest entry and the module
directory unchanged. -/
theorem C7_already_installed_short_circuit
    (self : ModuleInstall) (repo : ModulesRepo) (pr : Prompts) (st : PState)
    (X : ModName) (r1 : Sha) (silent : Bool)
    (hrt : self.repo_type_is_modules = false)
    (hvd : self.has_valid_directory = true)
    (hforce : self.force = false)
    (hsha : self.sha = none)
    (hX : X ≠ "")
    (hav : repo.get_avail_modules.contains X = true)
    (hex : repo.module_exists X = true)
    (hconf : pr.confirm_force = false)
    (hcur : ModulesJson.get_module_version st.manifest X repo.remote_url repo.repo_path
      = some r1)
    (hfs : fsHas st.fsTree (repo.repo_path, X) = true) :
    (self.install repo pr (some X) silent st).success = false ∧
    (self.install repo pr (some X) silent st).err = some InstallErr.alreadyInstalled ∧
    ModulesJson.get_module_version (self.install repo pr (some X) silent st).state.manifest
      X repo.remote_url repo.repo_path = some r1 ∧
    (self.install repo pr (some X) silent st).state.fsTree = st.fsTree := by
  have hX' : (X != "") = true := by simp [bne, beq_eq_false_iff_ne.mpr hX]
  have hcur' : ModulesJson.get_module_version
      (ModulesJson.check_up_to_date st.manifest st.fsTree) X repo.remote_url repo.repo_path
      = some r1 :=
    (ModulesJson.get_check_preserve st.manifest st.fsTree X repo.remote_url repo.repo_path
      hfs).trans hcur
  unfold ModuleInstall.install installNamed installMain
  simp only [hrt, hvd, hsha, hforce, hX', hav, hex, hconf, hcur', hfs,
    Option.isSome_none, Option.isSome_some, Bool.and_false, Bool.and_true, Bool.not_false,
    Bool.not_true, Bool.false_eq_true, if_false, if_true]
  exact ⟨trivial, trivial, trivial, trivial⟩

/-- Concrete witness data for the empty pinned revision: the revision "" does
not exist in the remote history, yet line 52 `if self.sha:` is falsy for it,
so the existence check is skipped and line 108 falls through to the latest
revision. -/
def c8eself : ModuleInstall :=
  { force := false, prompt := false, sha := some "", repo_type_is_modules := false,
    has_valid_directory := true }

def c8erepo : ModulesRepo :=
  { remote_url := "R", repo_path := "P", branch := "B", get_avail_modules := ["foo"],
    module_exists := fun _ => true, sha_exists_on_branch := fun v => v != "",
    get_latest_module_version := fun _ => "latest",
    fetch_module_files := fun _ _ => some [("main.nf", "c")] }

def c8epr : Prompts := { choose_module := "foo", confirm_force := false, choose_version := none }

/-- C8 counterexample: the pinned revision "" does not exist in the remote
history, yet the install neither fails with revision-not-found nor refrains
from mutating the manifest: it succeeds, installing the LATEST revision (and
so not the pinned one), because the truthiness guards at install.py lines 52
and 108 skip a falsy sha. -/
theorem C8_counterexample :
    c8erepo.sha_exists_on_branch "" = false ∧
    (c8eself.install c8erepo c8epr (some "foo") false ⟨[], []⟩).success = true ∧
    ModulesJson.get_module_version
      (c8eself.install c8erepo c8epr (some "foo") false ⟨[], []⟩).state.manifest
      "foo" "R" "P" = some "latest" := by
  decide

/-- C8 (amended): with a pinned revision that is a NONEMPTY string (the only
kind the truthiness guards at install.py lines 52 and 108 treat as pinned),
install first verifies the revision exists on the remote; if it does not, it
fails with the revision-not-found error, leaving the manifest and the module
tree untouched and never materializing; if it does, the exact pinned revision
is the one recorded and installed.  An empty pinned revision skips the check
and falls through to the prompt/latest resolution.  Stated for an initial
state the consistency check leaves unchanged (Invariant M1). -/
theorem C8_pinned_revision_checked
    (self : ModuleInstall) (repo : ModulesRepo) (pr : Prompts) (st : PState)
    (X : ModName) (s : Sha) (silent : Bool)
    (hrt : self.repo_type_is_modules = false)
    (hvd : self.has_valid_directory = true)
    (hsha : self.sha = some s)
    (hne : s ≠ "")
    (hprompt : self.prompt = false)
    (hX : X ≠ "")
    (hav : repo.get_avail_modules.contains X = true)
    (hex : repo.module_exists X = true)
    (hcons : ModulesJson.check_up_to_date st.manifest st.fsTree = st.manifest) :
    (repo.sha_exists_on_branch s = false →
      (self.install repo pr (some X) silent st).err = some InstallErr.shaNotFound ∧
      (self.install repo pr (some X) silent st).success = false ∧
      (self.install repo pr (some X) silent st).state.manifest = st.manifest ∧
      (self.install repo pr (some X) silent st).state.fsTree = st.fsTree ∧
      (∀ b, Event.materialize b ∉ (self.install repo pr (some X) silent st).trace) ∧
      Event.manifestUpdate ∉ (self.install repo pr (some X) silent st).trace) ∧
    (repo.sha_exists_on_branch s = true →
      self.force = false →
      ModulesJson.get_module_version st.manifest X repo.remote_url repo.repo_path = none →
      ∀ files, repo.fetch_module_files s X = some files →
        (self.install repo pr (some X) silent st).success = true ∧
        ModulesJson.get_module_version
          (self.install repo pr (some X) silent st).state.manifest
          X repo.remote_url repo.repo_path = some s ∧
        fsGet (self.install repo pr (some X) silent st).state.fsTree (repo.repo_path, X)
          = some files) := by
  have hs' : (s != "") = true := by simp [bne, beq_eq_false_iff_ne.mpr hne]
  constructor
  · intro hbr
    unfold ModuleInstall.install
    simp only [hrt, hvd, hprompt, hsha, hs', hbr, hcons, Option.isSome_some, Bool.false_and,
      Bool.not_false, Bool.not_true, Bool.false_eq_true, if_false, if_true]
    refine ⟨trivial, trivial, trivial, trivial, ?_, ?_⟩ <;> simp
  · intro hbr hforce hnoprior files hfetch
    have hX' : (X != "") = true := by simp [bne, beq_eq_false_iff_ne.mpr hX]
    have hcur : ModulesJson.get_module_version
        (ModulesJson.check_up_to_date st.manifest st.fsTree) X repo.remote_url repo.repo_path
        = none := by rw [hcons]; exact hnoprior
    unfold ModuleInstall.install installNamed installMain installVersioned installFinish
    simp only [hrt, hvd, hprompt, hsha, hs', hbr, hforce, hX', hav, hex, hfetch, hcur,
      Option.isSome_some, Option.isSome_none, Bool.false_and, Bool.not_true, Bool.not_false,
      Bool.and_false, Bool.false_eq_true, if_false, if_true]
    refine ⟨trivial, ?_, ?_⟩
    · exact ModulesJson.get_update_self ..
    · exact fsGet_clear_append ..

/-- C9 (implicit): when the already-installed confirmation is answered
positively, install() assigns `True` to `self.force` permanently, so the
returned object is exactly the original with force set, and every later
install() call on that object behaves as one with force requested from the
start. -/
theorem C9_confirm_escalation_mutates_force
    (self : ModuleInstall) (repo : ModulesRepo) (pr : Prompts) (st : PState)
    (X : ModName) (v : Sha) (silent : Bool)
    (hrt : self.repo_type_is_modules = false)
    (hvd : self.has_valid_directory = true)
    (hsha : self.sha = none)
    (hforce : self.force = false)
    (hX : X ≠ "")
    (hav : repo.get_avail_modules.contains X = true)
    (hex : repo.module_exists X = true)
    (hconf : pr.confirm_force = true)
    (hcur : ModulesJson.get_module_version st.manifest X repo.remote_url repo.repo_path
      = some v)
    (hfs : fsHas st.fsTree (repo.repo_path, X) = true) :
    (self.install repo pr (some X) silent st).self = { self with force := true } ∧
    ∀ (repo' : ModulesRepo) (pr' : Prompts) (module?' : Option ModName) (silent' : Bool)
      (st' : PState),
      ModuleInstall.install (self.install repo pr (some X) silent st).self repo' pr' module?'
          silent' st'
        = ModuleInstall.install { self with force := true } repo' pr' module?' silent' st' := by
  have hX' : (X != "") = true := by simp [bne, beq_eq_false_iff_ne.mpr hX]
  have hcur' : ModulesJson.get_module_version
      (ModulesJson.check_up_to_date st.manifest st.fsTree) X repo.remote_url repo.repo_path
      = some v :=
    (ModulesJson.get_check_preserve st.manifest st.fsTree X repo.remote_url repo.repo_path
      hfs).trans hcur
  have h1 : (self.install repo pr (some X) silent st).self = { self with force := true } := by
    unfold ModuleInstall.install installNamed installMain
    simp only [hrt, hvd, hsha, hforce, hX', hav, hex, hconf, hcur', hfs,
      Option.isSome_some, Option.isSome_none, Bool.false_and, Bool.and_false, Bool.and_true,
      Bool.not_false, Bool.not_true, Bool.false_eq_true, if_false, if_true]
    exact installVersioned_self ..
  exact ⟨h1, fun repo' pr' module?' silent' st' => by rw [h1]⟩

/-- Concrete witness data: a request with both prompt and sha set, over a
state whose manifest holds a stale entry (no directory on disk). -/
def c3self : ModuleInstall :=
  { force := false, prompt := true, sha := some "s1", repo_type_is_modules := false,
    has_valid_directory := true }

def c3repo : ModulesRepo :=
  { remote_url := "R", repo_path := "P", branch := "B", get_avail_modules := ["X"],
    module_exists := fun _ => true, sha_exists_on_branch := fun _ => true,
    get_latest_module_version := fun _ => "v", fetch_module_files := fun _ _ => some [] }

def c3pr : Prompts := { choose_module := "X", confirm_force := false, choose_version := some "v" }

def c3st : PState := { manifest := [("R", [("P", [("X", "r0")])])], fsTree := [] }

/-- C3 counterexample: the claim says the sha/prompt usage error happens
before the manifest consistency check and before any I/O; here the usage
error is returned, yet the consistency check has already run and its
bookkeeping already changed the manifest. -/
theorem C3_counterexample :
    (c3self.install c3repo c3pr (some "X") false c3st).err = some InstallErr.usageError ∧
    Event.checkUpToDate ∈ (c3self.install c3repo c3pr (some "X") false c3st).trace ∧
    (c3self.install c3repo c3pr (some "X") false c3st).state.manifest ≠ c3st.manifest := by
  decide

/-- C3 (amended): with prompt and sha both set, install fails with the usage
error before any remote call and without touching the module tree, but only
after directory validation and the manifest consistency check have run. -/
theorem C3_amended_usage_error_before_remote
    (self : ModuleInstall) (repo : ModulesRepo) (pr : Prompts) (module? : Option ModName)
    (silent : Bool) (st : PState) (s : Sha)
    (hrt : self.repo_type_is_modules = false)
    (hvd : self.has_valid_directory = true)
    (hprompt : self.prompt = true)
    (hsha : self.sha = some s) :
    (self.install repo pr module? silent st).err = some InstallErr.usageError ∧
    (self.install repo pr module? silent st).success = false ∧
    (self.install repo pr module? silent st).trace
      = [Event.checkStructure, Event.checkUpToDate] ∧
    (∀ e ∈ (self.install repo pr module? silent st).trace, e.isRemoteCall = false) ∧
    (self.install repo pr module? silent st).state.fsTree = st.fsTree ∧
    (self.install repo pr module? silent st).state.manifest
      = ModulesJson.check_up_to_date st.manifest st.fsTree := by
  unfold ModuleInstall.install
  simp only [hrt, hvd, hprompt, hsha, Option.isSome_some, Bool.true_and, Bool.and_true,
    Bool.not_true, Bool.false_eq_true, if_false, if_true]
  refine ⟨trivial, trivial, trivial, ?_, trivial, trivial⟩
  decide

/-- Concrete witness data: the empty module name, absent from the catalog,
with a remote that says the empty path exists on the branch. -/
def c4self : ModuleInstall :=
  { force := false, prompt := false, sha := none, repo_type_is_modules := false,
    has_valid_directory := true }

def c4repo : ModulesRepo :=
  { remote_url := "R", repo_path := "P", branch := "B", get_avail_modules := ["foo"],
    module_exists := fun _ => true, sha_exists_on_branch := fun _ => true,
    get_latest_module_version := fun _ => "v",
    fetch_module_files := fun _ _ => some [("main.nf", "c")] }

def c4pr : Prompts := { choose_module := "foo", confirm_force := false, choose_version := none }

/-- C4 counterexample: the empty string names a module absent from the
catalog, yet install succeeds and writes to the module tree — the catalog
rejection is skipped for a falsy name (install.py line 65), so the claim
fails as universally stated. -/
theorem C4_counterexample :
    ("" ∈ c4repo.get_avail_modules) = False ∧
    (c4self.install c4repo c4pr (some "") false ⟨[], []⟩).success = true ∧
    (c4self.install c4repo c4pr (some "") false ⟨[], []⟩).state.fsTree ≠ [] := by
  decide

/-- C4 (amended): for every NONEMPTY module name absent from the remote's
catalog, install returns failure, the module tree is untouched, and neither a
materialization nor a manifest record is performed (the in-memory consistency
reconciliation still runs first).  The original claim fails only for the
empty-string name, for which the catalog check is skipped (Python truthiness,
install.py line 65). -/
theorem C4_amended_unknown_nonempty_module_rejected
    (self : ModuleInstall) (repo : ModulesRepo) (pr : Prompts) (st : PState)
    (X : ModName) (silent : Bool)
    (hX : X ≠ "")
    (hnav : repo.get_avail_modules.contains X = false) :
    (self.install repo pr (some X) silent st).success = false ∧
    (self.install repo pr (some X) silent st).state.fsTree = st.fsTree ∧
    Event.manifestUpdate ∉ (self.install repo pr (some X) silent st).trace ∧
    (∀ b, Event.materialize b ∉ (self.install repo pr (some X) silent st).trace) := by
  have hX' : (X != "") = true := by simp [bne, beq_eq_false_iff_ne.mpr hX]
  have hmem : X ∉ repo.get_avail_modules := by simpa using hnav
  cases h1 : self.repo_type_is_modules with
  | true => simp [ModuleInstall.install, h1]
  | false =>
  cases h2 : self.has_valid_directory with
  | false => simp [ModuleInstall.install, h1, h2]
  | true =>
  cases h3 : self.prompt with
  | true =>
    cases h4 : self.sha with
    | some s => simp [ModuleInstall.install, h1, h2, h3, h4]
    | none =>
      simp [ModuleInstall.install, installNamed, h1, h2, h3, h4, hX', hnav, hmem]
  | false =>
    cases h4 : self.sha with
    | none => simp [ModuleInstall.install, installNamed, h1, h2, h3, h4, hX', hnav, hmem]
    | some s =>
      cases hs2 : (s != "") with
      | false =>
        simp [ModuleInstall.install, installNamed, h1, h2, h3, h4, hs2, hX', hnav, hmem]
      | true =>
        cases h5 : repo.sha_exists_on_branch s with
        | false => simp [ModuleInstall.install, h1, h2, h3, h4, hs2, h5]
        | true =>
          simp [ModuleInstall.install, installNamed, h1, h2, h3, h4, hs2, h5, hX', hnav, hmem]

/-- At the empty module name, installNamed can never return the
catalog-membership error (the line-65 condition is falsy), and the
name-validation stage is decided by the branch-existence check alone. -/
theorem installNamed_empty_decided (s : ModuleInstall) (repo : ModulesRepo) (pr : Prompts)
    (st : PState) (tr : List Event) :
    (installNamed s repo pr (some "") st tr).err ≠ some InstallErr.notInCatalog ∧
    (repo.module_exists "" = false →
      (installNamed s repo pr (some "") st tr).err = some InstallErr.notOnBranch ∧
      (installNamed s repo pr (some "") st tr).success = false) ∧
    (repo.module_exists "" = true →
      (installNamed s repo pr (some "") st tr).err ≠ some InstallErr.notOnBranch) := by
  unfold installNamed
  dsimp only
  simp only [bne_self_eq_false, Bool.false_and, Bool.false_eq_true, if_false]
  cases hex : repo.module_exists "" with
  | false => simp [hex]
  | true =>
    simp only [hex, Bool.not_true, Bool.false_eq_true, if_false]
    refine ⟨?_, by simp, fun _ => ?_⟩ <;>
      rcases installMain_err_cases s repo pr "" st (tr ++ [Event.remoteModuleExists]) with
        h | h | h | h <;> simp [h]

/-- C10 (implicit): for the empty-string module name the catalog-membership
rejection of install.py line 65 is unreachable (Python truthiness), and the
name-validation stage is decided by the branch-existence check alone: the
install fails there exactly when the remote lacks the module, and otherwise
never fails with either name-validation error. -/
theorem C10_empty_name_skips_catalog_check
    (self : ModuleInstall) (repo : ModulesRepo) (pr : Prompts) (st : PState) (silent : Bool) :
    (self.install repo pr (some "") silent st).err ≠ some InstallErr.notInCatalog ∧
    (self.repo_type_is_modules = false → self.has_valid_directory = true →
      (self.prompt && self.sha.isSome) = false →
      (∀ s, self.sha = some s → repo.sha_exists_on_branch s = true) →
      ((repo.module_exists "" = false →
        (self.install repo pr (some "") silent st).err = some InstallErr.notOnBranch ∧
        (self.install repo pr (some "") silent st).success = false) ∧
      (repo.module_exists "" = true →
        (self.install repo pr (some "") silent st).err ≠ some InstallErr.notOnBranch))) := by
  constructor
  · unfold ModuleInstall.install
    dsimp only
    split
    · simp
    · split
      · simp
      · split
        · simp
        · split
          · split
            · split
              · simp
              · exact (installNamed_empty_decided self repo pr _ _).1
            · exact (installNamed_empty_decided self repo pr _ _).1
          · exact (installNamed_empty_decided self repo pr _ _).1
  · intro hrt hvd husage hshaok
    cases h4 : self.sha with
    | none =>
      refine ⟨fun hex => ?_, fun hex => ?_⟩ <;>
        simp only [ModuleInstall.install, hrt, hvd, h4, Option.isSome_none, Bool.and_false,
          Bool.not_true, Bool.not_false, Bool.false_eq_true, if_false, if_true]
      · exact (installNamed_empty_decided self repo pr _ _).2.1 hex
      · exact (installNamed_empty_decided self repo pr _ _).2.2 hex
    | some s =>
      have hp : self.prompt = false := by simpa [h4] using husage
      cases hs2 : (s != "") with
      | true =>
        have h5 := hshaok s h4
        refine ⟨fun hex => ?_, fun hex => ?_⟩ <;>
          simp only [ModuleInstall.install, hrt, hvd, hp, h4, hs2, h5, Option.isSome_some,
            Bool.false_and, Bool.and_false, Bool.not_true, Bool.not_false,
            Bool.false_eq_true, if_false, if_true]
        · exact (installNamed_empty_decided self repo pr _ _).2.1 hex
        · exact (installNamed_empty_decided self repo pr _ _).2.2 hex
      | false =>
        refine ⟨fun hex => ?_, fun hex => ?_⟩ <;>
          simp only [ModuleInstall.install, hrt, hvd, hp, h4, hs2, Option.isSome_some,
            Bool.false_and, Bool.and_false, Bool.not_true, Bool.not_false,
            Bool.false_eq_true, if_false, if_true]
        · exact (installNamed_empty_decided self repo pr _ _).2.1 hex
        · exact (installNamed_empty_decided self repo pr _ _).2.2 hex

/-- A one-module remote registry used to instantiate install scenarios. -/
def c5repo (R p b X : String) (v : Sha) (f : Files) : ModulesRepo :=
  { remote_url := R, repo_path := p, branch := b, get_avail_modules := [X],
    module_exists := fun _ => true, sha_exists_on_branch := fun _ => true,
    get_latest_module_version := fun _ => v, fetch_module_files := fun _ _ => some f }

def c5self1 : ModuleInstall :=
  { force := false, prompt := false, sha := none, repo_type_is_modules := false,
    has_valid_directory := true }

def c5self2 : ModuleInstall :=
  { force := true, prompt := false, sha := none, repo_type_is_modules := false,
    has_valid_directory := true }

def c5pr : Prompts := { choose_module := "", confirm_force := false, choose_version := none }

/-- C5: installing module X from remote R into a fresh project and then
reinstalling it with force, with the remote meanwhile resolving a different
latest revision, leaves exactly one manifest entry for (R, path, X), holding
the revision resolved by the second install. -/
theorem C5_force_reinstall_replaces
    (R p b X v1 v2 : String) (f1 f2 : Files) (hX : X ≠ "") :
    (c5self2.install (c5repo R p b X v2 f2) c5pr (some X) true
      (c5self1.install (c5repo R p b X v1 f1) c5pr (some X) true ⟨[], []⟩).state).success
        = true ∧
    ModulesJson.count_entries
      (c5self2.install (c5repo R p b X v2 f2) c5pr (some X) true
        (c5self1.install (c5repo R p b X v1 f1) c5pr (some X) true ⟨[], []⟩).state).state.manifest
      R p X = 1 ∧
    ModulesJson.get_module_version
      (c5self2.install (c5repo R p b X v2 f2) c5pr (some X) true
        (c5self1.install (c5repo R p b X v1 f1) c5pr (some X) true ⟨[], []⟩).state).state.manifest
      X R p = some v2 := by
  have hX' : (X != "") = true := by simp [bne, beq_eq_false_iff_ne.mpr hX]
  simp [ModuleInstall.install, installNamed, installMain, installVersioned,
    installVersionPrompt, installFinish,
    ModulesJson.check_up_to_date, ModulesJson.get_module_version, ModulesJson.findRepo,
    ModulesJson.findDir, ModulesJson.findMod, ModulesJson.forceRemoveMatching,
    ModulesJson.removeMod, ModulesJson.update, ModulesJson.upsertDir, ModulesJson.upsertMod,
    ModulesJson.count_entries, clear_module_dir, fsHas, fsGet, c5repo, c5self1, c5self2, c5pr,
    hX', List.contains, List.filter]

/-- Concrete witness data for the force purge: two remotes R1 and R2 both
record module M under repository path P (sharing the directory modules/P/M);
the force reinstall targets R1. -/
def c1self : ModuleInstall :=
  { force := true, prompt := false, sha := none, repo_type_is_modules := false,
    has_valid_directory := true }

def c1repo : ModulesRepo :=
  { remote_url := "R1", repo_path := "P", branch := "B", get_avail_modules := ["M"],
    module_exists := fun _ => true, sha_exists_on_branch := fun _ => true,
    get_latest_module_version := fun _ => "v2",
    fetch_module_files := fun _ _ => some [("main.nf", "c")] }

def c1pr : Prompts := { choose_module := "M", confirm_force := false, choose_version := none }

def c1st : PState :=
  { manifest := [("R1", [("P", [("M", "r1")])]), ("R2", [("P", [("M", "r2")])])],
    fsTree := [(("P", "M"), [("main.nf", "x")])] }

/-- C1 counterexample: the force purge removes the matching (repoPath, name)
entry under the OTHER remote R2 as well — the scan at install.py 127-136
matches on dir and name only, never comparing the repo url against the
target remote — refuting the claim that no manifest entry under any other
remote is removed. -/
theorem C1_counterexample :
    ModulesJson.get_module_version c1st.manifest "M" "R2" "P" = some "r2" ∧
    (c1self.install c1repo c1pr (some "M") false c1st).success = true ∧
    ModulesJson.get_module_version
      (c1self.install c1repo c1pr (some "M") false c1st).state.manifest "M" "R2" "P"
      = none := by
  decide

/-- C1 (amended): when force is set, install purges the module directory and
removes from the manifest, before materialization, every entry whose
repoPath+name pair matches the target — one per remote holding such an entry,
under whichever remote it appears — and nothing else.  The run below fails at
materialization, so the purge of state and manifest it exhibits happened
strictly before materialization; the trace shows the same order. -/
theorem C1_amended_force_purge_scope
    (self : ModuleInstall) (repo : ModulesRepo) (pr : Prompts) (st : PState)
    (X : ModName) (silent : Bool)
    (hrt : self.repo_type_is_modules = false)
    (hvd : self.has_valid_directory = true)
    (hforce : self.force = true)
    (hsha : self.sha = none)
    (hprompt : self.prompt = false)
    (hX : X ≠ "")
    (hav : repo.get_avail_modules.contains X = true)
    (hex : repo.module_exists X = true)
    (hleaf : leafNodup st.manifest)
    (hmf : repo.fetch_module_files (repo.get_latest_module_version X) X = none) :
    (self.install repo pr (some X) silent st).err = some InstallErr.materializeFailed ∧
    (self.install repo pr (some X) silent st).state.manifest
      = ModulesJson.forceRemoveMatching
          (ModulesJson.check_up_to_date st.manifest st.fsTree) repo.repo_path X ∧
    fsHas (self.install repo pr (some X) silent st).state.fsTree (repo.repo_path, X)
      = false ∧
    (∀ rem, ModulesJson.get_module_version
      (self.install repo pr (some X) silent st).state.manifest X rem repo.repo_path = none) ∧
    (∀ rem p' m', p' ≠ repo.repo_path ∨ m' ≠ X →
      ModulesJson.get_module_version
        (self.install repo pr (some X) silent st).state.manifest m' rem p'
      = ModulesJson.get_module_version
          (ModulesJson.check_up_to_date st.manifest st.fsTree) m' rem p') ∧
    (self.install repo pr (some X) silent st).trace
      = [Event.checkStructure, Event.checkUpToDate, Event.remoteAvail,
        Event.remoteModuleExists, Event.remoteLatest, Event.purgeDir,
        Event.materialize false] := by
  have hX' : (X != "") = true := by simp [bne, beq_eq_false_iff_ne.mpr hX]
  unfold ModuleInstall.install installNamed installMain installVersioned installVersionPrompt
    installFinish
  simp only [hrt, hvd, hprompt, hsha, hforce, hX', hav, hex, hmf, Option.isSome_none,
    Option.isSome_some, Bool.false_and, Bool.and_false, Bool.true_and, Bool.and_true,
    Bool.not_true, Bool.not_false, Bool.false_eq_true, if_false, if_true,
    List.cons_append, List.nil_append, List.append_assoc]
  refine ⟨trivial, trivial, fsHas_clear_self .., ?_, ?_, by simp⟩
  · exact fun rem => ModulesJson.get_forceRemove_self _ repo.repo_path X rem
      (ModulesJson.leafNodup_check st.manifest st.fsTree hleaf)
  · exact fun rem p' m' h => ModulesJson.get_forceRemove_frame _ repo.repo_path X rem p' m' h

/-! ### Concrete instantiations of each hypothesis-bearing theorem -/

def c1wrepo : ModulesRepo :=
  { remote_url := "R1", repo_path := "P", branch := "B", get_avail_modules := ["M"],
    module_exists := fun _ => true, sha_exists_on_branch := fun _ => true,
    get_latest_module_version := fun _ => "v2", fetch_module_files := fun _ _ => none }

theorem C1_amended_force_purge_scope_witness :
    (c1self.install c1wrepo c1pr (some "M") false c1st).err
      = some InstallErr.materializeFailed ∧
    ModulesJson.get_module_version
      (c1self.install c1wrepo c1pr (some "M") false c1st).state.manifest "M" "R2" "P"
      = none := by
  have h := C1_amended_force_purge_scope c1self c1wrepo c1pr c1st "M" false rfl rfl rfl rfl
    rfl (by decide) (by decide) rfl (by decide) rfl
  exact ⟨h.1, h.2.2.2.1 "R2"⟩

def cwFailRepo : ModulesRepo :=
  { remote_url := "R", repo_path := "P", branch := "B", get_avail_modules := ["foo"],
    module_exists := fun _ => true, sha_exists_on_branch := fun _ => true,
    get_latest_module_version := fun _ => "v", fetch_module_files := fun _ _ => none }

theorem C2_no_manifest_entry_after_materialization_failure_witness :
    (c4self.install cwFailRepo c4pr (some "foo") false ⟨[], []⟩).success = false ∧
    ModulesJson.get_module_version
      (c4self.install cwFailRepo c4pr (some "foo") false ⟨[], []⟩).state.manifest
      (resolvedName (some "foo") c4pr) cwFailRepo.remote_url cwFailRepo.repo_path = none := by
  have h := C2_no_manifest_entry_after_materialization_failure c4self cwFailRepo c4pr
    (some "foo") false ⟨[], []⟩ (by decide) (by decide)
  exact ⟨h.1, h.2.1⟩

theorem C3_amended_usage_error_before_remote_witness :
    (c3self.install c3repo c3pr (some "X") false c3st).err = some InstallErr.usageError ∧
    (c3self.install c3repo c3pr (some "X") false c3st).success = false := by
  have h := C3_amended_usage_error_before_remote c3self c3repo c3pr (some "X") false c3st
    "s1" rfl rfl rfl rfl
  exact ⟨h.1, h.2.1⟩

theorem C4_amended_unknown_nonempty_module_rejected_witness :
    (c4self.install c4repo c4pr (some "bar") false ⟨[], []⟩).success = false ∧
    (c4self.install c4repo c4pr (some "bar") false ⟨[], []⟩).state.fsTree = [] := by
  have h := C4_amended_unknown_nonempty_module_rejected c4self c4repo c4pr ⟨[], []⟩ "bar"
    false (by decide) (by decide)
  exact ⟨h.1, h.2.1⟩

theorem C5_force_reinstall_replaces_witness :
    ModulesJson.count_entries
      (c5self2.install (c5repo "R" "P" "B" "X" "v2" [("f", "2")]) c5pr (some "X") true
        (c5self1.install (c5repo "R" "P" "B" "X" "v1" [("f", "1")]) c5pr (some "X") true
          ⟨[], []⟩).state).state.manifest "R" "P" "X" = 1 :=
  (C5_force_reinstall_replaces "R" "P" "B" "X" "v1" "v2" [("f", "1")] [("f", "2")]
    (by decide)).2.1

theorem C6_latest_version_default_witness :
    (c4self.install (c5repo "R" "P" "B" "foo" "abc123" [("main.nf", "c")]) c4pr (some "foo")
      false ⟨[], []⟩).success = true ∧
    ModulesJson.get_module_version
      (c4self.install (c5repo "R" "P" "B" "foo" "abc123" [("main.nf", "c")]) c4pr (some "foo")
        false ⟨[], []⟩).state.manifest "foo"
      (c5repo "R" "P" "B" "foo" "abc123" [("main.nf", "c")]).remote_url
      (c5repo "R" "P" "B" "foo" "abc123" [("main.nf", "c")]).repo_path = some "abc123" := by
  have h := C6_latest_version_default c4self (c5repo "R" "P" "B" "foo" "abc123"
    [("main.nf", "c")]) c4pr ⟨[], []⟩ "foo" "abc123" [("main.nf", "c")] false rfl rfl rfl rfl
    rfl (by decide) (by decide) rfl rfl rfl rfl
  exact ⟨h.1, h.2.1⟩

def c7st : PState :=
  { manifest := [("R", [("P", [("foo", "r1")])])], fsTree := [(("P", "foo"), [("m", "x")])] }

theorem C7_already_installed_short_circuit_witness :
    (c4self.install (c5repo "R" "P" "B" "foo" "v" []) c4pr (some "foo") false c7st).success
      = false ∧
    (c4self.install (c5repo "R" "P" "B" "foo" "v" []) c4pr (some "foo") false c7st).err
      = some InstallErr.alreadyInstalled := by
  have h := C7_already_installed_short_circuit c4self (c5repo "R" "P" "B" "foo" "v" []) c4pr
    c7st "foo" "r1" false rfl rfl rfl rfl (by decide) (by decide) rfl rfl (by decide)
    (by decide)
  exact ⟨h.1, h.2.1⟩

def c8self : ModuleInstall :=
  { force := false, prompt := false, sha := some "s1", repo_type_is_modules := false,
    has_valid_directory := true }

def c8repo : ModulesRepo :=
  { remote_url := "R", repo_path := "P", branch := "B", get_avail_modules := ["foo"],
    module_exists := fun _ => true, sha_exists_on_branch := fun _ => false,
    get_latest_module_version := fun _ => "v", fetch_module_files := fun _ _ => some [] }

theorem C8_pinned_revision_checked_witness :
    (c8self.install c8repo c4pr (some "foo") false ⟨[], []⟩).err
      = some InstallErr.shaNotFound ∧
    (c8self.install c8repo c4pr (some "foo") false ⟨[], []⟩).success = false := by
  have h := C8_pinned_revision_checked c8self c8repo c4pr ⟨[], []⟩ "foo" "s1" false rfl rfl
    rfl (by decide) rfl (by decide) (by decide) rfl rfl
  exact ⟨(h.1 rfl).1, (h.1 rfl).2.1⟩

def c9pr : Prompts := { choose_module := "foo", confirm_force := true, choose_version := none }

theorem C9_confirm_escalation_mutates_force_witness :
    (c4self.install (c5repo "R" "P" "B" "foo" "v" []) c9pr (some "foo") false c7st).self
      = { c4self with force := true } := by
  have h := C9_confirm_escalation_mutates_force c4self (c5repo "R" "P" "B" "foo" "v" []) c9pr
    c7st "foo" "r1" false rfl rfl rfl rfl (by decide) (by decide) rfl rfl (by decide)
    (by decide)
  exact h.1

def c10repo : ModulesRepo :=
  { remote_url := "R", repo_path := "P", branch := "B", get_avail_modules := ["foo"],
    module_exists := fun m => m != "", sha_exists_on_branch := fun _ => true,
    get_latest_module_version := fun _ => "v", fetch_module_files := fun _ _ => some [] }

theorem C10_empty_name_skips_catalog_check_witness :
    (c4self.install c10repo c4pr (some "") false ⟨[], []⟩).err ≠ some InstallErr.notInCatalog ∧
    (c4self.install c10repo c4pr (some "") false ⟨[], []⟩).err
      = some InstallErr.notOnBranch := by
  have h := C10_empty_name_skips_catalog_check c4self c10repo c4pr ⟨[], []⟩ false
  exact ⟨h.1, ((h.2 rfl rfl (by decide) (fun s hs => Option.noConfusion hs)).1 (by decide)).1⟩
